import Mathlib

/-!
Verification of the douyin-sync-skill repository's reconciliation and fetch
logic, shallowly embedded from `scripts/douyin_api.py`, `scripts/sync.py`,
and `scripts/yuntu_scraper.py`.  Python dictionaries are modelled as
insertion-ordered association lists with dict-update semantics, strings as
Lean `String` (or `List Char` where character scanning matters), and
network calls as oracle parameters.
-/

/-! ## Association lists with Python-dict update semantics -/

/-- Lookup in an association list, first binding wins (Python dict lookup). -/
def alookup {α : Type} : List (String × α) → String → Option α
  | [], _ => none
  | (k, v) :: rest, key => if k = key then some v else alookup rest key

/-- `d[k] = v` on a Python dict: overwrite the existing binding in place,
or append a fresh binding at the end (insertion order preserved). -/
def dinsert {α : Type} : List (String × α) → String → α → List (String × α)
  | [], k, v => [(k, v)]
  | (k1, v1) :: rest, k, v =>
    if k1 = k then (k1, v) :: rest else (k1, v1) :: dinsert rest k v

/-! ## Statistics and video metadata (douyin_api.py) -/

/-- The five statistic counters shaped as in the `statistics` dicts built at
`douyin_api.py` lines 223-229 and 362-368. -/
structure Statistics where
  digg_count : Nat
  comment_count : Nat
  share_count : Nat
  collect_count : Nat
  play_count : Nat
deriving DecidableEq

/-- One key's step of the max-wins merge in `_supplement_statistics`
(`douyin_api.py` lines 271-276): `app_val = app_stats.get(key, 0)`,
`web_val = tik_data['statistics'].get(key, 0)`, `final_val = max(...)`,
and the dict entry is written only when `final_val > 0`. -/
def merge_stat_entry (web_entry app_entry : Option Nat) : Option Nat :=
  let app_val := app_entry.getD 0
  let web_val := web_entry.getD 0
  let final_val := max app_val web_val
  if 0 < final_val then some final_val else web_entry

/-- The play-count write of the batch supplement
(`douyin_api.py` line 427): `results[vid]['data']['statistics']['play_count']
= play_count`, an unconditional assignment of the App API value. -/
def batch_play_update (s : Statistics) (play_count : Nat) : Statistics :=
  { s with play_count := play_count }

/-- Projection of the `converted_data` record built by the fetch adapter
(`douyin_api.py` lines 349-372): identifier, description, the
`_data_source` tag and the statistics block. -/
structure VideoData where
  aweme_id : String
  desc : String
  source : String
  statistics : Statistics
deriving DecidableEq

/-- One `statistics_list` record's effect in the batch play-count supplement
(`douyin_api.py` lines 419-429): if `vid in results and results[vid]`,
overwrite its play count with the App API value and retag the source. -/
def app_stats_step (r : List (String × Option VideoData)) (entry : String × Nat) :
    List (String × Option VideoData) :=
  match alookup r entry.1 with
  | some (some d) =>
      dinsert r entry.1
        (some { d with statistics := batch_play_update d.statistics entry.2,
                       source := "App API" })
  | _ => r

/-- The whole App-API play-count supplement phase of `fetch_videos_batch`
(`douyin_api.py` lines 395-432), with the flattened sequence of received
`statistics_list` records as input. -/
def applyAppStats (stats : List (String × Nat))
    (results : List (String × Option VideoData)) : List (String × Option VideoData) :=
  stats.foldl app_stats_step results

/-! ## Brand registry (yuntu_scraper.py) -/

/-- One entry of the brand registry (`yuntu_scraper.py` lines 69-74). -/
structure BrandInfo where
  name : String
  aadvid : String
  industry : String
  yuntu_url : String
deriving DecidableEq

/-- The derived dashboard URL f-string of `add_brand`
(`yuntu_scraper.py` line 73). -/
def yuntu_url_of (aadvid : String) : String :=
  "https://yuntu.oceanengine.com/yuntu_brand/ecom/strategy/medium/talent_markting/hotcontent?aadvid=" ++ aadvid

/-- The `DEFAULT_BRANDS` constant (`yuntu_scraper.py` lines 40-48). -/
def DEFAULT_BRANDS : List (String × BrandInfo) :=
  [("lego",
    { name := "乐高/LEGO"
      aadvid := "1731407744628743"
      industry := "母婴/母婴"
      yuntu_url := "https://yuntu.oceanengine.com/yuntu_brand/ecom/strategy/medium/talent_markting/hotcontent?aadvid=1731407744628743" })]

/-- `add_brand` (`yuntu_scraper.py` lines 66-76): read the registry, bind
`brand_key` to a fresh entry with the derived URL, write it back.  The
loaded/saved registry is passed explicitly. -/
def add_brand (brands : List (String × BrandInfo))
    (brand_key name aadvid industry : String) : List (String × BrandInfo) :=
  dinsert brands brand_key
    { name := name, aadvid := aadvid, industry := industry,
      yuntu_url := yuntu_url_of aadvid }

/-- `get_brand_url` (`yuntu_scraper.py` lines 79-84): return the stored
`yuntu_url` when the key is present, else `None`. -/
def get_brand_url (brands : List (String × BrandInfo)) (brand_key : String) :
    Option String :=
  (alookup brands brand_key).map (fun info => info.yuntu_url)

/-! ## Feishu row model and sync planner (sync.py) -/

/-- One item of a Feishu rich-text list value: either a dict carrying a
`text` key (missing `text` modelled as `""`), or any other item, of which
the code only ever takes `str(first_item)`. -/
inductive RichOrStr where
  | rich (text : String)
  | plain (s : String)
deriving DecidableEq

/-- A Feishu cell value as handled by `extract_video_id` and the
description normalization in `cmd_sync`: absent/None (falsy), a plain
string, or a list (possibly of rich-text dicts).  A missing field fetched
with `fields.get(name, "")` is modelled as `vstr ""`. -/
inductive FsVal where
  | vnone
  | vstr (s : String)
  | vlist (items : List RichOrStr)
deriving DecidableEq

/-- A numeric-ish cell as consumed through `bool(fields.get(...))`
(`点赞数` / `播放量` in `cmd_sync`). -/
inductive CellNum where
  | missing
  | num (n : Int)
deriving DecidableEq

/-- Python truthiness of a numeric cell: `None` is falsy, `0` is falsy. -/
def truthy_cell : CellNum → Bool
  | .missing => false
  | .num n => n != 0

/-- The fields of one spreadsheet row that `cmd_sync` reads:
`视频ID`, `点赞数`, `播放量`, `标题描述`. -/
structure RecFields where
  videoId : FsVal
  likeCount : CellNum
  playCount : CellNum
  desc : FsVal
deriving DecidableEq

/-- One Feishu record: an opaque `record_id` plus its fields. -/
structure Record where
  record_id : String
  fields : RecFields
deriving DecidableEq

/-- `extract_video_id` (`sync.py` lines 274-287): falsy values give `""`;
for a list, take the first item's `text` (dicts) or `str(first)`,
stripped; otherwise `str(raw_value).strip()`. -/
def extract_video_id : FsVal → String
  | .vnone => ""
  | .vstr s => if s = "" then "" else s.trim
  | .vlist [] => ""
  | .vlist (.rich t :: _) => t.trim
  | .vlist (.plain s :: _) => s.trim

/-- The `desc_raw` normalization of `cmd_sync` (`sync.py` lines 182-192):
a list takes its first item's `text` (dicts) or `str(first)`, the empty
list gives `""`; a non-list gives `str(desc_raw) if desc_raw else ""`. -/
def normalize_desc : FsVal → String
  | .vnone => ""
  | .vstr s => s
  | .vlist [] => ""
  | .vlist (.rich t :: _) => t
  | .vlist (.plain s :: _) => s

/-- `is_error` (`sync.py` line 194):
`desc_value in ["视频已下架", ""] or desc_value.startswith("⚠️")`. -/
def is_error_desc (d : String) : Bool :=
  (d = "视频已下架" || d = "") || d.startsWith "⚠️"

/-- `has_valid_desc` (`sync.py` line 195): `bool(desc_value) and not is_error`. -/
def has_valid_desc (d : String) : Bool :=
  (!(d = "")) && !(is_error_desc d)

/-- `is_complete` (`sync.py` line 196):
`has_valid_desc and (has_likes or has_plays)`. -/
def is_complete (f : RecFields) : Bool :=
  has_valid_desc (normalize_desc f.desc) &&
    (truthy_cell f.likeCount || truthy_cell f.playCount)

/-- One group of rows sharing a video id (`sync.py` lines 165-168):
the first row encountered (`master`) plus later duplicates in order. -/
structure VidGroup where
  master : Record
  duplicates : List Record
deriving DecidableEq

/-- The effect of one loop body iteration on the `video_groups` dict
(`sync.py` lines 165-168): a fresh key is appended with the record as
master, an existing key gets the record appended to its duplicates. -/
def insertRecord : List (String × VidGroup) → String → Record → List (String × VidGroup)
  | [], vid, r => [(vid, ⟨r, []⟩)]
  | (k, g) :: rest, vid, r =>
    if k = vid then (k, ⟨g.master, g.duplicates ++ [r]⟩) :: rest
    else (k, g) :: insertRecord rest vid r

/-- The grouping loop of `cmd_sync` (`sync.py` lines 159-168), threading
the `video_groups` dict: rows whose extracted id is `""` are skipped. -/
def buildGroups : List (String × VidGroup) → List Record → List (String × VidGroup)
  | acc, [] => acc
  | acc, r :: rs =>
    let vid := extract_video_id r.fields.videoId
    if vid = "" then buildGroups acc rs
    else buildGroups (insertRecord acc vid r) rs

/-- `video_groups` as produced by `cmd_sync` from the fetched records. -/
def video_groups (records : List Record) : List (String × VidGroup) :=
  buildGroups [] records

/-- The fetch-plan loop of `cmd_sync` (`sync.py` lines 175-199):
`if args.force or not is_complete: videos_to_fetch.append(vid)`. -/
def videos_to_fetch : List (String × VidGroup) → Bool → List String
  | [], _ => []
  | (vid, g) :: rest, force =>
    if force || !(is_complete g.master.fields) then
      vid :: videos_to_fetch rest force
    else videos_to_fetch rest force

/-- One update payload sent back to Feishu (`sync.py` lines 232-241). -/
structure RowUpdate where
  record_id : String
  fields : List (String × String)
deriving DecidableEq

/-- The per-group update construction of `cmd_sync` (`sync.py` lines
230-241): a truthy parsed result becomes a full field mapping on the
master row; a missing or falsy parsed result becomes the minimal
`{"标题描述": "视频已下架"}` update. -/
def build_update (vid : String) (g : VidGroup)
    (parsed : List (String × List (String × String))) : RowUpdate :=
  match alookup parsed vid with
  | some p =>
    if p = [] then ⟨g.master.record_id, [("标题描述", "视频已下架")]⟩
    else ⟨g.master.record_id, p⟩
  | none => ⟨g.master.record_id, [("标题描述", "视频已下架")]⟩

/-- The update loop of `cmd_sync` (`sync.py` lines 226-241): iterate the
groups; only ids in `videos_to_fetch` contribute an update. -/
def applyResults : List (String × VidGroup) → List String →
    List (String × List (String × String)) → List RowUpdate
  | [], _, _ => []
  | (vid, g) :: rest, toFetch, parsed =>
    if vid ∈ toFetch then
      build_update vid g parsed :: applyResults rest toFetch parsed
    else applyResults rest toFetch parsed

/-! ## Identifier extractor (douyin_api.py, _extract_aweme_id) -/

/-- `re.search(r'\d{19}', s)` succeeds at offset `i`: nineteen characters
exist there and all are decimal digits. -/
def run19At (s : List Char) (i : Nat) : Bool :=
  (((s.drop i).take 19).length == 19) && ((s.drop i).take 19).all Char.isDigit

/-- The generic 19-digit search of `_extract_aweme_id` (`douyin_api.py`
lines 56-58): `re.search` scans offsets left to right and returns the
first window of 19 consecutive digits. -/
def find19 : List Char → Option (List Char)
  | [] => none
  | c :: cs =>
    if run19At (c :: cs) 0 then some ((c :: cs).take 19) else find19 cs

/-- Try one legacy pattern at the current offset: the literal `pat`
followed by a greedy nonempty digit run (`<pat>(\d+)`). -/
def match_digits_after (pat : List Char) (s : List Char) : Option (List Char) :=
  if pat.isPrefixOf s then
    let ds := (s.drop pat.length).takeWhile Char.isDigit
    if ds.isEmpty then none else some ds
  else none

/-- `re.search` for one legacy pattern (`douyin_api.py` lines 61-69):
leftmost offset where the literal is followed by at least one digit,
capturing the maximal digit run. -/
def search_pattern (pat : List Char) : List Char → Option (List Char)
  | [] => none
  | c :: cs =>
    match match_digits_after pat (c :: cs) with
    | some r => some r
    | none => search_pattern pat cs

/-- Python `str.strip()`: drop whitespace from both ends. -/
def pstrip (s : List Char) : List Char :=
  ((s.dropWhile Char.isWhitespace).reverse.dropWhile Char.isWhitespace).reverse

/-- Python's substring test `pat in s`. -/
def has_substring (pat : List Char) : List Char → Bool
  | [] => pat.isEmpty
  | c :: cs => pat.isPrefixOf (c :: cs) || has_substring pat cs

/-- One offset of `re.search(r'(https?://[^\s]+)', s)`: the literal scheme
followed by the greedy run of non-whitespace characters. -/
def match_url_at (s : List Char) : Option (List Char) :=
  if ("https://".toList).isPrefixOf s then
    some (("https://".toList) ++ (s.drop 8).takeWhile (fun c => !c.isWhitespace))
  else if ("http://".toList).isPrefixOf s then
    some (("http://".toList) ++ (s.drop 7).takeWhile (fun c => !c.isWhitespace))
  else none

/-- Leftmost match of the URL pattern (`douyin_api.py` line 50). -/
def find_url : List Char → Option (List Char)
  | [] => none
  | c :: cs =>
    match match_url_at (c :: cs) with
    | some u => some u
    | none => find_url cs

/-- Step 1 of `_extract_aweme_id` (`douyin_api.py` lines 46-53): strip the
input; when it contains `"http"` and an URL matches, the whole input is
replaced by `_resolve_redirects(url)`, modelled by the `resolver`
oracle (which itself returns the URL unchanged on non-short links or on
redirect failure). -/
def resolved_form (resolver : List Char → List Char) (input : List Char) :
    List Char :=
  let s0 := pstrip input
  if has_substring ("http".toList) s0 then
    match find_url s0 with
    | some url => resolver url
    | none => s0
  else s0

/-- Steps 2-3 of `_extract_aweme_id` (`douyin_api.py` lines 55-71): the
19-digit search, then the legacy patterns `/video/(\d+)`,
`aweme_id=(\d+)`, `modal_id=(\d+)` in order, else `None`. -/
def extract_core (s : List Char) : Option (List Char) :=
  match find19 s with
  | some r => some r
  | none =>
    match search_pattern ("/video/".toList) s with
    | some r => some r
    | none =>
      match search_pattern ("aweme_id=".toList) s with
      | some r => some r
      | none => search_pattern ("modal_id=".toList) s

/-- The full `_extract_aweme_id` (`douyin_api.py` lines 41-71). -/
def extract_aweme_id (resolver : List Char → List Char) (input : List Char) :
    Option (List Char) :=
  extract_core (resolved_form resolver input)

/-! ## Single-video fetch retry loop (douyin_api.py, fetch_video) -/

/-- The top-level JSON of a TikHub response, with the nested
`data.aweme_detail` / `data.filter_detail` flattened in. -/
structure ApiJson where
  code : Int
  aweme_detail : Option VideoData
  filter_detail : Option String
deriving DecidableEq

/-- What one iteration of the retry loop in `fetch_video` (`douyin_api.py`
lines 106-171) observes from the network: an HTTP 200 whose parsed JSON is
truthy (`some`) or falsy (`none`); a 404 together with the outcome of the
Mobile-API fallback request (status and JSON, `none` when the request
raised) and the error body's `detail` field (`none` when parsing raised);
some other status; a timeout; a connection error. -/
inductive AttemptOutcome where
  | ok200 (body : Option ApiJson)
  | notFound (mobile : Option (Nat × ApiJson)) (errDetail : Option String)
  | otherStatus (code : Nat)
  | timeout
  | connError
deriving DecidableEq

/-- The Mobile-API fallback acceptance test (`douyin_api.py` lines
132-137): status 200, `code == 200` and a truthy `aweme_detail`. -/
def mobile_ok (mobile : Option (Nat × ApiJson)) : Option ApiJson :=
  match mobile with
  | some (status, j) =>
    if status = 200 ∧ j.code = 200 ∧ j.aweme_detail.isSome then some j else none
  | _ => none

/-- `time.sleep(2)` guarded by `attempt < 2` (`douyin_api.py` lines 170-171). -/
def maybe_sleep (i : Nat) (sleeps : List Nat) : List Nat :=
  if i < 2 then sleeps ++ [2] else sleeps

/-- The state observable after the retry loop of `fetch_video`:
whether the loop returned the synthetic removed record from inside
(`douyin_api.py` lines 142-159), the last `response` status, the parsed
`data`, the number of attempts made and the sleeps performed. -/
structure LoopOut where
  earlyRemoved : Bool
  response : Option Nat
  data : Option ApiJson
  attempts : Nat
  sleeps : List Nat
deriving DecidableEq

/-- The retry loop of `fetch_video` (`douyin_api.py` lines 106-171) over
the remaining attempt indices, threading `response` and `data`. -/
def loopGo (oracle : Nat → AttemptOutcome) :
    List Nat → Option Nat → Option ApiJson → Nat → List Nat → LoopOut
  | [], response, data, attempts, sleeps =>
    ⟨false, response, data, attempts, sleeps⟩
  | i :: rest, response, data, attempts, sleeps =>
    match oracle i with
    | .ok200 body =>
      match body with
      | some j => ⟨false, some 200, some j, attempts + 1, sleeps⟩
      | none => loopGo oracle rest (some 200) data (attempts + 1) (maybe_sleep i sleeps)
    | .notFound mobile errDetail =>
      match mobile_ok mobile with
      | some j => ⟨false, some 404, some j, attempts + 1, sleeps⟩
      | none =>
        if errDetail = some "Not Found" then
          ⟨true, some 404, data, attempts + 1, sleeps⟩
        else loopGo oracle rest (some 404) data (attempts + 1) (maybe_sleep i sleeps)
    | .otherStatus c =>
      loopGo oracle rest (some c) data (attempts + 1) (maybe_sleep i sleeps)
    | .timeout =>
      loopGo oracle rest response data (attempts + 1) (maybe_sleep i sleeps)
    | .connError =>
      loopGo oracle rest response data (attempts + 1) (maybe_sleep i sleeps)

/-- The classified outcome of `fetch_video`: `failure` is Python `None`;
the removed outcomes are the synthetic "已下架" records; `fetched` hands
the detail on to statistics supplement and format conversion. -/
inductive FetchOut where
  | failure
  | removedNotFound
  | removedFiltered
  | fetched (d : VideoData)
deriving DecidableEq

/-- The observable run of `fetch_video` (`douyin_api.py` lines 102-203):
the loop over attempts 0,1,2, then `response is None` → `None`,
`not data or code != 200` → `None`, a missing `aweme_detail` with a
`filter_detail` → the synthetic removed record, else the detail. -/
structure FetchRun where
  out : FetchOut
  attempts : Nat
  sleeps : List Nat
deriving DecidableEq

/-- The post-loop outcome classification of `fetch_video` (`douyin_api.py`
lines 173-203): an early return keeps the synthetic removed record;
`response is None` and `not data or data.get('code') != 200` give `None`;
a missing `aweme_detail` gives the filtered removed record when
`filter_detail` is present and `None` otherwise. -/
def fetch_out (r : LoopOut) : FetchOut :=
  if r.earlyRemoved then .removedNotFound
  else
    match r.response with
    | none => .failure
    | some _ =>
      match r.data with
      | none => .failure
      | some j =>
        if j.code = 200 then
          match j.aweme_detail with
          | some det => .fetched det
          | none =>
            match j.filter_detail with
            | some _ => .removedFiltered
            | none => .failure
        else .failure

/-- `fetch_video`'s retry loop plus its post-loop outcome classification
(`douyin_api.py` lines 102-203). -/
def fetch_video_model (oracle : Nat → AttemptOutcome) : FetchRun :=
  let r := loopGo oracle [0, 1, 2] none none 0 []
  ⟨fetch_out r, r.attempts, r.sleeps⟩

/-! ## Batch fetch (douyin_api.py, fetch_videos_batch) -/

/-- The external behaviour `fetch_videos_batch` depends on:
whether some exception escapes to the top-level handler
(`douyin_api.py` lines 437-439); per chunk, the converted entries
actually inserted from the Web-API response (empty on HTTP error or parse
failure, a prefix of the list when parsing raises midway); the per-item
single-fetch fallback (`some` exactly when it returned a record with
`code == 0`); and the flattened App-API `statistics_list` records. -/
structure BatchOracle where
  topException : Bool
  webItems : List String → List (String × VideoData)
  fallback : String → Option VideoData
  appStats : List (String × Nat)

/-- Chunking `aweme_ids[i:i+50]` (`douyin_api.py` lines 308-310). -/
def chunksOf : List String → List (List String)
  | [] => []
  | x :: xs =>
    (x :: xs).take 50 :: chunksOf ((x :: xs).drop 50)
termination_by l => l.length
decreasing_by simp [List.length_drop]; omega

/-- The `aweme_id not in results` fallback step of the chunk loop
(`douyin_api.py` lines 381-393): an id already present is skipped; a
missing id is first bound to `None` and then rebound to the single-video
fallback's record when that call succeeds. -/
def chunk_item_step (o : BatchOracle) (r : List (String × Option VideoData))
    (id : String) : List (String × Option VideoData) :=
  if (alookup r id).isSome then r
  else
    match o.fallback id with
    | some d => dinsert (dinsert r id none) id (some d)
    | none => dinsert r id none

/-- Processing of one chunk (`douyin_api.py` lines 312-393): insert the
Web-API entries, then for every chunk id not yet a key, bind it to `None`
and rescue it through the single-video fallback when that succeeds. -/
def processChunk (o : BatchOracle) (results : List (String × Option VideoData))
    (chunk : List String) : List (String × Option VideoData) :=
  let r1 := (o.webItems chunk).foldl (fun r kv => dinsert r kv.1 (some kv.2)) results
  chunk.foldl (chunk_item_step o) r1

/-- The chunk loop of `fetch_videos_batch`, threading `results`. -/
def run_chunks (o : BatchOracle) :
    List (List String) → List (String × Option VideoData) →
    List (String × Option VideoData)
  | [], r => r
  | c :: cs, r => run_chunks o cs (processChunk o r c)

/-- `fetch_videos_batch` (`douyin_api.py` lines 285-439): the empty
request gives `{}`; a top-level exception gives `{id: None for id}`;
otherwise the chunk loop followed by the App-API play-count supplement. -/
def fetch_videos_batch (o : BatchOracle) (aweme_ids : List String) :
    List (String × Option VideoData) :=
  if aweme_ids.isEmpty then []
  else if o.topException then
    aweme_ids.foldl (fun r id => dinsert r id none) []
  else applyAppStats o.appStats (run_chunks o (chunksOf aweme_ids) [])

/-! ## Concrete inputs used by witnesses -/

/-- A master row with a title and a positive like count. -/
def wRec1 : Record :=
  ⟨"recA1", ⟨.vstr "7000000000000000001", .num 120, .missing, .vstr "某标题"⟩⟩

/-- A duplicate row for the same video id. -/
def wRec2 : Record :=
  ⟨"recA2", ⟨.vstr "7000000000000000001", .missing, .missing, .vstr ""⟩⟩

/-- An incomplete row for a second video id. -/
def wRec3 : Record :=
  ⟨"recB1", ⟨.vstr "7000000000000000002", .missing, .missing, .vstr ""⟩⟩

/-- A row whose video id field is empty (unresolvable). -/
def wRec4 : Record := ⟨"recX", ⟨.vnone, .missing, .missing, .vstr ""⟩⟩

/-- A concrete record list. -/
def wRecords : List Record := [wRec1, wRec2, wRec3, wRec4]

/-- The group of the second video id alone. -/
def wGroupB : VidGroup := ⟨wRec3, []⟩

/-- A concrete grouping. -/
def wGroups : List (String × VidGroup) := [("7000000000000000002", wGroupB)]

/-- A concrete fetch plan. -/
def wToFetch : List String := ["7000000000000000002"]

/-- A redirect resolver sending every short link to a canonical video URL. -/
def wResolver : List Char → List Char :=
  fun _ => "https://www.douyin.com/video/7567352731951164082".toList

/-- A concrete short-link input. -/
def wInput : List Char := "https://v.douyin.com/iAbCdEf".toList

/-- A batch oracle on which every network interaction fails softly. -/
def wOracle : BatchOracle := ⟨false, fun _ => [], fun _ => none, []⟩

/-- A batch oracle whose run raises to the top-level handler. -/
def wOracleExc : BatchOracle := ⟨true, fun _ => [], fun _ => none, []⟩

/-! ## Helper lemmas -/

theorem alookup_dinsert {α : Type} (l : List (String × α)) (k : String) (v : α)
    (key : String) :
    alookup (dinsert l k v) key = if k = key then some v else alookup l key := by
  induction l with
  | nil =>
    by_cases h : k = key <;> simp [dinsert, alookup, h]
  | cons p rest ih =>
    obtain ⟨k1, v1⟩ := p
    by_cases h1 : k1 = k
    · subst h1
      by_cases h2 : k1 = key <;> simp [dinsert, alookup, h2]
    · by_cases h2 : k1 = key
      · subst h2
        simp [dinsert, alookup, h1]
        rw [if_neg (fun h => h1 h.symm)]
      · simp [dinsert, alookup, h1, h2, ih]

theorem string_append_assoc (s t u : String) : s ++ t ++ u = s ++ (t ++ u) := by
  apply String.ext
  simp [String.data_append, List.append_assoc]

/-! ## C1: statistics merge policy -/

/-- C1 counterexample: on the batch play-count supplement path of
`fetch_videos_batch`, an App-API play count of 0 overwrites a Web-API play
count of 100, so the merged statistic is 0 and not the maximum of the two
sources. -/
theorem batch_play_supplement_not_max :
    alookup
        (applyAppStats [("7567352731951164082", 0)]
          [("7567352731951164082",
            some ⟨"7567352731951164082", "标题", "Web API", ⟨1, 1, 1, 1, 100⟩⟩)])
        "7567352731951164082"
      = some (some ⟨"7567352731951164082", "标题", "App API", ⟨1, 1, 1, 1, 0⟩⟩) ∧
    (0 : Nat) ≠ max 100 0 := by
  constructor
  · rfl
  · decide

/-- C1 (amended): in `_supplement_statistics` every statistic key is merged
max-wins — the observed merged value is the maximum of the two sources,
zero never overwrites a positive value and a positive value does overwrite
zero — but in the batch play-count supplement of `fetch_videos_batch` the
App-API play count is assigned unconditionally, the other four counters
being left unchanged. -/
theorem stats_merge_amended :
    (∀ web_entry app_entry : Option Nat,
      (merge_stat_entry web_entry app_entry).getD 0 =
        max (web_entry.getD 0) (app_entry.getD 0)) ∧
    (∀ m : Nat, 0 < m →
      merge_stat_entry (some m) (some 0) = some m ∧
      merge_stat_entry (some 0) (some m) = some m) ∧
    (∀ (s : Statistics) (p : Nat),
      (batch_play_update s p).play_count = p ∧
      (batch_play_update s p).digg_count = s.digg_count ∧
      (batch_play_update s p).comment_count = s.comment_count ∧
      (batch_play_update s p).share_count = s.share_count ∧
      (batch_play_update s p).collect_count = s.collect_count) := by
  refine ⟨?_, ?_, ?_⟩
  · intro w a
    simp only [merge_stat_entry]
    split
    · next hpos => simp [Nat.max_comm]
    · next hneg =>
      have h0 : max (a.getD 0) (w.getD 0) = 0 := by omega
      have h1 : a.getD 0 = 0 ∧ w.getD 0 = 0 := by
        constructor <;> omega
      simp [h1.1, h1.2]
  · intro m hm
    constructor <;> simp [merge_stat_entry, Nat.max_comm, hm]
  · intro s p
    exact ⟨rfl, rfl, rfl, rfl, rfl⟩

/-- C1 witness: the max-wins overwrite facts at the value 5. -/
theorem stats_merge_amended_w :
    merge_stat_entry (some 5) (some 0) = some 5 ∧
    merge_stat_entry (some 0) (some 5) = some 5 :=
  stats_merge_amended.2.1 5 (by decide)

/-! ## C2: completeness classification -/

/-- C2: a group is classified complete exactly when its master row's
normalized description is non-empty, is not the sentinel "视频已下架",
does not start with "⚠️", and at least one of the like and play counts is
truthy; in particular a master row with description "视频已下架" and a
positive like count is not complete. -/
theorem completeness_classification :
    (∀ f : RecFields,
      is_complete f = true ↔
        (normalize_desc f.desc ≠ "" ∧ normalize_desc f.desc ≠ "视频已下架" ∧
         (normalize_desc f.desc).startsWith "⚠️" = false ∧
         (truthy_cell f.likeCount = true ∨ truthy_cell f.playCount = true))) ∧
    is_complete ⟨.vnone, .num 120, .missing, .vstr "视频已下架"⟩ = false := by
  constructor
  · intro f
    simp only [is_complete, has_valid_desc, is_error_desc, Bool.and_eq_true,
      Bool.or_eq_true, Bool.not_eq_true', Bool.or_eq_false_iff,
      decide_eq_false_iff_not, decide_eq_true_eq]
    tauto
  · decide

/-- C2 witness: the classification unfolded at a complete row. -/
theorem completeness_classification_w :
    is_complete ⟨.vstr "7", .num 120, .missing, .vstr "某标题"⟩ = true ↔
      (normalize_desc (.vstr "某标题") ≠ "" ∧
       normalize_desc (.vstr "某标题") ≠ "视频已下架" ∧
       (normalize_desc (.vstr "某标题")).startsWith "⚠️" = false ∧
       (truthy_cell (.num 120) = true ∨ truthy_cell .missing = true)) :=
  completeness_classification.1 ⟨.vstr "7", .num 120, .missing, .vstr "某标题"⟩

/-! ## C7: force marks every group -/

/-- C7: with `force = true` the fetch plan lists every group's identifier,
in encounter order, regardless of its completeness classification. -/
theorem force_fetches_all (groups : List (String × VidGroup)) :
    videos_to_fetch groups true = groups.map Prod.fst := by
  induction groups with
  | nil => rfl
  | cons p rest ih =>
    obtain ⟨vid, g⟩ := p
    simp [videos_to_fetch, ih]

/-! ## C10: brand registry round trip -/

/-- C10: after `add_brand key name aadvid industry`, `get_brand_url key`
returns the derived dashboard URL, which ends in `aadvid=` followed by the
advertiser id, and the binding of every other key is unchanged. -/
theorem brand_roundtrip (brands : List (String × BrandInfo))
    (key name aadvid industry : String) :
    (∃ pre, get_brand_url (add_brand brands key name aadvid industry) key =
        some (pre ++ ("aadvid=" ++ aadvid))) ∧
    (∀ other, other ≠ key →
      alookup (add_brand brands key name aadvid industry) other =
        alookup brands other) := by
  constructor
  · refine ⟨"https://yuntu.oceanengine.com/yuntu_brand/ecom/strategy/medium/talent_markting/hotcontent?", ?_⟩
    have hurl : yuntu_url_of aadvid =
        "https://yuntu.oceanengine.com/yuntu_brand/ecom/strategy/medium/talent_markting/hotcontent?" ++
          ("aadvid=" ++ aadvid) := by
      rw [← string_append_assoc]
      rfl
    simp [get_brand_url, add_brand, alookup_dinsert, hurl]
  · intro other hother
    simp only [add_brand]
    rw [alookup_dinsert, if_neg (fun e => hother e.symm)]

/-- C10 witness: adding a second brand next to the default registry. -/
theorem brand_roundtrip_w :
    (∃ pre, get_brand_url (add_brand DEFAULT_BRANDS "dupont" "杜邦" "999000111" "家居") "dupont" =
        some (pre ++ ("aadvid=" ++ "999000111"))) ∧
    alookup (add_brand DEFAULT_BRANDS "dupont" "杜邦" "999000111" "家居") "lego" =
      alookup DEFAULT_BRANDS "lego" :=
  ⟨(brand_roundtrip DEFAULT_BRANDS "dupont" "杜邦" "999000111" "家居").1,
   (brand_roundtrip DEFAULT_BRANDS "dupont" "杜邦" "999000111" "家居").2 "lego" (by decide)⟩

/-! ## C3: grouping by video id -/

/-- Lookup after one grouping-loop insertion: the inserted id's group gains
the record (as master when fresh, as last duplicate otherwise); every
other id's group is untouched. -/
theorem alookup_insertRecord (acc : List (String × VidGroup)) (vid : String)
    (r : Record) (key : String) :
    alookup (insertRecord acc vid r) key =
      if key = vid then
        (match alookup acc vid with
         | none => some ⟨r, []⟩
         | some g => some ⟨g.master, g.duplicates ++ [r]⟩)
      else alookup acc key := by
  induction acc with
  | nil =>
    by_cases h : key = vid
    · subst h; simp [insertRecord, alookup]
    · simp [insertRecord, alookup, h]
      exact fun e => h e.symm
  | cons p rest ih =>
    obtain ⟨k, g⟩ := p
    by_cases hk : k = vid
    · subst hk
      by_cases hkey : k = key
      · subst hkey
        simp [insertRecord, alookup]
      · have hkv : ¬ key = k := fun e => hkey e.symm
        simp [insertRecord, alookup, hkey, hkv]
    · by_cases hkey : k = key
      · subst hkey
        simp [insertRecord, alookup, hk]
      · simp [insertRecord, alookup, hk, hkey, ih]

/-- Invariant of the grouping loop: the group finally bound to a non-empty
id `vid` is the group already in the accumulator extended with the
remaining rows whose extracted id is `vid`, in encounter order. -/
theorem alookup_buildGroups (vid : String) (h : vid ≠ "") :
    ∀ (rs : List Record) (acc : List (String × VidGroup)),
    alookup (buildGroups acc rs) vid =
      (match alookup acc vid,
             rs.filter (fun r => extract_video_id r.fields.videoId == vid) with
       | none, [] => none
       | none, m :: ds => some ⟨m, ds⟩
       | some g, l => some ⟨g.master, g.duplicates ++ l⟩) := by
  intro rs
  induction rs with
  | nil =>
    intro acc
    cases halt : alookup acc vid <;> simp [buildGroups, halt]
  | cons r rest ih =>
    intro acc
    by_cases hv : extract_video_id r.fields.videoId = ""
    · have hne : (extract_video_id r.fields.videoId == vid) = false := by
        simp [hv]
        exact fun e => h e.symm
      simp only [buildGroups]
      rw [if_pos hv, ih acc]
      simp [List.filter_cons, hne]
    · simp only [buildGroups]
      rw [if_neg hv, ih (insertRecord acc (extract_video_id r.fields.videoId) r),
        alookup_insertRecord]
      by_cases heq : extract_video_id r.fields.videoId = vid
      · subst heq
        have hbeq : (extract_video_id r.fields.videoId ==
            extract_video_id r.fields.videoId) = true := by simp
        rw [if_pos rfl]
        cases hacc : alookup acc (extract_video_id r.fields.videoId) with
        | none => simp [List.filter_cons, hbeq]
        | some g => simp [List.filter_cons, hbeq, List.append_assoc]
      · have hbne : (extract_video_id r.fields.videoId == vid) = false := by
          simp [heq]
        rw [if_neg (fun e => heq e.symm)]
        simp [List.filter_cons, hbne]

/-- Inserting a row under a non-empty id keeps every group key non-empty. -/
theorem keys_insertRecord (acc : List (String × VidGroup)) (vid : String)
    (r : Record) (hvid : vid ≠ "") (hacc : ∀ p ∈ acc, p.1 ≠ "") :
    ∀ p ∈ insertRecord acc vid r, p.1 ≠ "" := by
  induction acc with
  | nil =>
    intro p hp
    simp [insertRecord] at hp
    subst hp
    exact hvid
  | cons q rest ih =>
    obtain ⟨k, g⟩ := q
    intro p hp
    by_cases hk : k = vid
    · simp [insertRecord, hk] at hp
      rcases hp with hp | hp
      · subst hp; exact hvid
      · exact hacc p (List.mem_cons_of_mem _ hp)
    · simp [insertRecord, hk] at hp
      rcases hp with hp | hp
      · subst hp
        exact hacc (k, g) (List.mem_cons_self _ _)
      · exact ih (fun q hq => hacc q (List.mem_cons_of_mem _ hq)) p hp

/-- The grouping loop only ever creates groups under non-empty ids. -/
theorem keys_buildGroups :
    ∀ (rs : List Record) (acc : List (String × VidGroup)),
    (∀ p ∈ acc, p.1 ≠ "") → ∀ p ∈ buildGroups acc rs, p.1 ≠ "" := by
  intro rs
  induction rs with
  | nil => intro acc hacc; simpa [buildGroups] using hacc
  | cons r rest ih =>
    intro acc hacc
    by_cases hv : extract_video_id r.fields.videoId = ""
    · simp only [buildGroups]
      rw [if_pos hv]
      exact ih acc hacc
    · simp only [buildGroups]
      rw [if_neg hv]
      exact ih _ (keys_insertRecord acc _ r hv hacc)

/-- C3: grouping rows by the extracted video id — for every non-empty id,
the group bound to it consists of exactly the rows whose extracted id
equals it, in encounter order, with the first such row as master and the
rest as duplicates (so each row with a resolvable id belongs to exactly
one group); no group is ever created for the empty (unresolved) id, so
such rows are silently dropped. -/
theorem grouping_characterization (records : List Record) (vid : String)
    (h : vid ≠ "") :
    (alookup (video_groups records) vid =
      match records.filter (fun r => extract_video_id r.fields.videoId == vid) with
      | [] => none
      | m :: ds => some ⟨m, ds⟩) ∧
    (∀ p ∈ video_groups records, p.1 ≠ "") := by
  constructor
  · have hinv := alookup_buildGroups vid h records []
    rw [video_groups, hinv]
    cases List.filter (fun r => extract_video_id r.fields.videoId == vid) records <;>
      simp [alookup]
  · exact keys_buildGroups records [] (by simp)

/-- C3 witness: three rows with ids A, A, B and one unresolvable row —
the A group has the first row as master and the second as its duplicate. -/
theorem grouping_characterization_w :
    (alookup (video_groups wRecords) "7000000000000000001" =
      match wRecords.filter
          (fun r => extract_video_id r.fields.videoId == "7000000000000000001") with
      | [] => none
      | m :: ds => some ⟨m, ds⟩) ∧
    (∀ p ∈ video_groups wRecords, p.1 ≠ "") :=
  grouping_characterization wRecords "7000000000000000001" (by decide)

/-! ## C6: update construction frame -/

/-- C6: the update loop produces an update only for groups whose id is in
the fetch plan, always targeting the group's master row; and when the
parsed fetch result for an id is absent (the fetch returned null), the
produced update carries exactly the single field
`标题描述 = 视频已下架`. -/
theorem apply_results_frame (groups : List (String × VidGroup))
    (toFetch : List String) (parsed : List (String × List (String × String))) :
    (∀ u ∈ applyResults groups toFetch parsed,
      ∃ p, p ∈ groups ∧ p.1 ∈ toFetch ∧ u.record_id = p.2.master.record_id) ∧
    (∀ vid g, (vid, g) ∈ groups → vid ∈ toFetch → alookup parsed vid = none →
      (⟨g.master.record_id, [("标题描述", "视频已下架")]⟩ : RowUpdate) ∈
        applyResults groups toFetch parsed) := by
  constructor
  · induction groups with
    | nil => intro u hu; simp [applyResults] at hu
    | cons p rest ih =>
      obtain ⟨vid, g⟩ := p
      intro u hu
      by_cases hf : vid ∈ toFetch
      · simp only [applyResults, if_pos hf] at hu
        rcases List.mem_cons.mp hu with hu | hu
        · subst hu
          refine ⟨(vid, g), List.mem_cons_self _ _, hf, ?_⟩
          simp [build_update]
          cases halt : alookup parsed vid with
          | none => simp
          | some l => cases l <;> simp
        · obtain ⟨q, hq, hqf, hqid⟩ := ih u hu
          exact ⟨q, List.mem_cons_of_mem _ hq, hqf, hqid⟩
      · simp only [applyResults, if_neg hf] at hu
        obtain ⟨q, hq, hqf, hqid⟩ := ih u hu
        exact ⟨q, List.mem_cons_of_mem _ hq, hqf, hqid⟩
  · induction groups with
    | nil => intro vid g hmem; simp at hmem
    | cons p rest ih =>
      obtain ⟨vid0, g0⟩ := p
      intro vid g hmem hf hnone
      rcases List.mem_cons.mp hmem with heq | hmem2
      · injection heq with h1 h2
        subst h1; subst h2
        simp only [applyResults, if_pos hf]
        have hbu : build_update vid g parsed =
            ⟨g.master.record_id, [("标题描述", "视频已下架")]⟩ := by
          simp [build_update, hnone]
        rw [hbu]
        exact List.mem_cons_self _ _
      · have hrec := ih vid g hmem2 hf hnone
        by_cases hf0 : vid0 ∈ toFetch
        · simp only [applyResults, if_pos hf0]
          exact List.mem_cons_of_mem _ hrec
        · simp only [applyResults, if_neg hf0]
          exact hrec

/-- C6 witness: one group whose fetch came back empty receives exactly the
sentinel update. -/
theorem apply_results_frame_w :
    (⟨wRec3.record_id, [("标题描述", "视频已下架")]⟩ : RowUpdate) ∈
      applyResults wGroups wToFetch [] :=
  (apply_results_frame wGroups wToFetch []).2 "7000000000000000002" wGroupB
    (by decide) (by decide) rfl

/-! ## C4 and C5: identifier extraction -/

/-- `find19` returns the window at the least offset where 19 consecutive
digits occur. -/
theorem find19_first :
    ∀ (s : List Char) (i : Nat), run19At s i = true →
      (∀ j, j < i → run19At s j = false) →
      find19 s = some ((s.drop i).take 19) := by
  intro s
  induction s with
  | nil =>
    intro i hi _
    simp [run19At] at hi
  | cons c cs ih =>
    intro i hi hmin
    cases i with
    | zero =>
      simp only [find19]
      rw [if_pos hi]
      rfl
    | succ i0 =>
      have h0 : run19At (c :: cs) 0 = false := hmin 0 (Nat.succ_pos i0)
      simp only [find19]
      rw [if_neg (by simp [h0])]
      have hi0 : run19At cs i0 = true := hi
      have hmin0 : ∀ j, j < i0 → run19At cs j = false :=
        fun j hj => hmin (j + 1) (Nat.succ_lt_succ hj)
      exact ih i0 hi0 hmin0

/-- C4: whenever the redirect-resolved form of the input contains a run of
19 consecutive decimal digits, `_extract_aweme_id` returns the leftmost
such 19-digit window, regardless of surrounding text. -/
theorem extract_first_19_run (resolver : List Char → List Char)
    (input : List Char) (i : Nat)
    (h : run19At (resolved_form resolver input) i = true)
    (hmin : ∀ j, j < i → run19At (resolved_form resolver input) j = false) :
    extract_aweme_id resolver input =
      some (((resolved_form resolver input).drop i).take 19) := by
  rw [extract_aweme_id, extract_core, find19_first (resolved_form resolver input) i h hmin]

/-- C4 witness: a short link resolving to a canonical video URL; the sole
19-digit run starts at offset 29. -/
theorem extract_first_19_run_w :
    extract_aweme_id wResolver wInput =
      some (((resolved_form wResolver wInput).drop 29).take 19) :=
  extract_first_19_run wResolver wInput 29 (by decide) (by decide)

/-- Every hit of `find19` is a 19-character all-digit window. -/
theorem find19_shape :
    ∀ (s : List Char) (r : List Char), find19 s = some r →
      r.length = 19 ∧ r.all Char.isDigit = true := by
  intro s
  induction s with
  | nil => intro r hr; simp [find19] at hr
  | cons c cs ih =>
    intro r hr
    simp only [find19] at hr
    by_cases h0 : run19At (c :: cs) 0 = true
    · rw [if_pos h0] at hr
      injection hr with hr
      subst hr
      simp only [run19At, List.drop_zero, Bool.and_eq_true, beq_iff_eq] at h0
      exact ⟨h0.1, h0.2⟩
    · rw [if_neg h0] at hr
      exact ih r hr

/-- Characters kept by `takeWhile` satisfy the predicate. -/
theorem takeWhile_all_holds (p : Char → Bool) :
    ∀ (l : List Char), (l.takeWhile p).all p = true := by
  intro l
  induction l with
  | nil => rfl
  | cons c cs ih =>
    by_cases hc : p c = true
    · simp [List.takeWhile, hc, ih]
    · simp [List.takeWhile, hc]

/-- Every hit of a legacy pattern search is a nonempty all-digit string. -/
theorem search_pattern_shape (pat : List Char) :
    ∀ (s : List Char) (r : List Char), search_pattern pat s = some r →
      r ≠ [] ∧ r.all Char.isDigit = true := by
  intro s
  induction s with
  | nil => intro r hr; simp [search_pattern] at hr
  | cons c cs ih =>
    intro r hr
    simp only [search_pattern] at hr
    cases hm : match_digits_after pat (c :: cs) with
    | some r0 =>
      rw [hm] at hr
      injection hr with hr
      subst hr
      simp only [match_digits_after] at hm
      by_cases hp : pat.isPrefixOf (c :: cs) = true
      · rw [if_pos hp] at hm
        by_cases he : (((c :: cs).drop pat.length).takeWhile Char.isDigit).isEmpty = true
        · simp [he] at hm
        · simp only [he, if_neg, Bool.false_eq_true, not_false_eq_true, if_false] at hm
          injection hm with hm
          subst hm
          refine ⟨by simpa [List.isEmpty_iff] using he, takeWhile_all_holds _ _⟩
      · simp [hp] at hm
    | none =>
      rw [hm] at hr
      exact ih r hr

/-- C5 counterexample: the legacy `/video/(\d+)` fallback returns the
3-digit string "123" for the input "/video/123", so the extractor's
non-`None` results are not always 19 digits long. -/
theorem legacy_branch_returns_short_id :
    extract_aweme_id (fun s => s) ("/video/123".toList) =
        some ("123".toList) ∧
    ("123".toList).length ≠ 19 := by
  constructor
  · rfl
  · decide

/-- C5 (amended): `_extract_aweme_id` returns `None` or a nonempty
all-digit string; the generic branch always returns exactly 19 digits,
while the legacy fallback branches may return digit runs of any nonzero
length. -/
theorem extract_result_shape :
    (∀ (resolver : List Char → List Char) (input : List Char),
      extract_aweme_id resolver input = none ∨
      ∃ r, extract_aweme_id resolver input = some r ∧ r ≠ [] ∧
        r.all Char.isDigit = true) ∧
    (∀ (s r : List Char), find19 s = some r →
      r.length = 19 ∧ r.all Char.isDigit = true) := by
  constructor
  · intro resolver input
    rw [extract_aweme_id, extract_core]
    cases h19 : find19 (resolved_form resolver input) with
    | some r =>
      right
      obtain ⟨hlen, hdig⟩ := find19_shape _ r h19
      exact ⟨r, rfl, by intro he; subst he; simp at hlen, hdig⟩
    | none =>
      cases hp1 : search_pattern ("/video/".toList) (resolved_form resolver input) with
      | some r =>
        right
        obtain ⟨hne, hdig⟩ := search_pattern_shape _ _ r hp1
        exact ⟨r, rfl, hne, hdig⟩
      | none =>
        cases hp2 : search_pattern ("aweme_id=".toList) (resolved_form resolver input) with
        | some r =>
          right
          obtain ⟨hne, hdig⟩ := search_pattern_shape _ _ r hp2
          exact ⟨r, rfl, hne, hdig⟩
        | none =>
          cases hp3 : search_pattern ("modal_id=".toList) (resolved_form resolver input) with
          | some r =>
            right
            obtain ⟨hne, hdig⟩ := search_pattern_shape _ _ r hp3
            exact ⟨r, rfl, hne, hdig⟩
          | none => left; rfl
  · exact find19_shape

/-- C5 witness: the generic branch at a concrete string with a 20-digit
blob returns its first 19 digits. -/
theorem extract_result_shape_w :
    ("7567352731951164082".toList).length = 19 ∧
    ("7567352731951164082".toList).all Char.isDigit = true :=
  extract_result_shape.2 ("a75673527319511640823".toList)
    ("7567352731951164082".toList) (by decide)

/-! ## C8: retry behaviour of the single-video fetch -/

/-- The retry loop makes at most one attempt per remaining index. -/
theorem loopGo_attempts (oracle : Nat → AttemptOutcome) :
    ∀ (idxs : List Nat) (response : Option Nat) (data : Option ApiJson)
      (attempts : Nat) (sleeps : List Nat),
      (loopGo oracle idxs response data attempts sleeps).attempts ≤
        attempts + idxs.length := by
  intro idxs
  induction idxs with
  | nil => intro response data attempts sleeps; simp [loopGo]
  | cons i rest ih =>
    intro response data attempts sleeps
    cases ho : oracle i with
    | ok200 body =>
      cases body with
      | some j =>
        simp only [loopGo, ho, List.length_cons]
        omega
      | none =>
        simp only [loopGo, ho, List.length_cons]
        have := ih (some 200) data (attempts + 1) (maybe_sleep i sleeps)
        omega
    | notFound mobile errDetail =>
      cases hm : mobile_ok mobile with
      | some j =>
        simp only [loopGo, ho, hm, List.length_cons]
        omega
      | none =>
        by_cases he : errDetail = some "Not Found"
        · simp only [loopGo, ho, hm, List.length_cons, if_pos he]
          omega
        · simp only [loopGo, ho, hm, List.length_cons, if_neg he]
          have := ih (some 404) data (attempts + 1) (maybe_sleep i sleeps)
          omega
    | otherStatus c =>
      simp only [loopGo, ho, List.length_cons]
      have := ih (some c) data (attempts + 1) (maybe_sleep i sleeps)
      omega
    | timeout =>
      simp only [loopGo, ho, List.length_cons]
      have := ih response data (attempts + 1) (maybe_sleep i sleeps)
      omega
    | connError =>
      simp only [loopGo, ho, List.length_cons]
      have := ih response data (attempts + 1) (maybe_sleep i sleeps)
      omega

/-- Every sleep recorded by the retry loop lasts 2 seconds. -/
theorem loopGo_sleeps (oracle : Nat → AttemptOutcome) :
    ∀ (idxs : List Nat) (response : Option Nat) (data : Option ApiJson)
      (attempts : Nat) (sleeps : List Nat),
      (∀ x ∈ sleeps, x = 2) →
      ∀ x ∈ (loopGo oracle idxs response data attempts sleeps).sleeps, x = 2 := by
  intro idxs
  induction idxs with
  | nil => intro response data attempts sleeps hs; simpa [loopGo] using hs
  | cons i rest ih =>
    intro response data attempts sleeps hs
    have hms : ∀ x ∈ maybe_sleep i sleeps, x = 2 := by
      intro x hx
      by_cases hi : i < 2
      · simp [maybe_sleep, hi] at hx
        rcases hx with hx | hx
        · exact hs x hx
        · exact hx
      · simp [maybe_sleep, hi] at hx
        exact hs x hx
    cases ho : oracle i with
    | ok200 body =>
      cases body with
      | some j => simp only [loopGo, ho]; simpa using hs
      | none =>
        simp only [loopGo, ho]
        exact ih (some 200) data (attempts + 1) (maybe_sleep i sleeps) hms
    | notFound mobile errDetail =>
      cases hm : mobile_ok mobile with
      | some j => simp only [loopGo, ho, hm]; simpa using hs
      | none =>
        by_cases he : errDetail = some "Not Found"
        · simp only [loopGo, ho, hm, if_pos he]; simpa using hs
        · simp only [loopGo, ho, hm, if_neg he]
          exact ih (some 404) data (attempts + 1) (maybe_sleep i sleeps) hms
    | otherStatus c =>
      simp only [loopGo, ho]
      exact ih (some c) data (attempts + 1) (maybe_sleep i sleeps) hms
    | timeout =>
      simp only [loopGo, ho]
      exact ih response data (attempts + 1) (maybe_sleep i sleeps) hms
    | connError =>
      simp only [loopGo, ho]
      exact ih response data (attempts + 1) (maybe_sleep i sleeps) hms

/-- When every remaining attempt times out or fails to connect, the loop
runs all of them, the state is untouched, and each non-final attempt
records its fixed sleep. -/
theorem loopGo_all_transient (oracle : Nat → AttemptOutcome) :
    ∀ (idxs : List Nat) (response : Option Nat) (data : Option ApiJson)
      (attempts : Nat) (sleeps : List Nat),
      (∀ i ∈ idxs, oracle i = .timeout ∨ oracle i = .connError) →
      loopGo oracle idxs response data attempts sleeps =
        ⟨false, response, data, attempts + idxs.length,
          idxs.foldl (fun acc i => maybe_sleep i acc) sleeps⟩ := by
  intro idxs
  induction idxs with
  | nil => intro response data attempts sleeps _; simp [loopGo]
  | cons i rest ih =>
    intro response data attempts sleeps hall
    have hi := hall i (List.mem_cons_self _ _)
    have hrest : ∀ j ∈ rest, oracle j = .timeout ∨ oracle j = .connError :=
      fun j hj => hall j (List.mem_cons_of_mem _ hj)
    rcases hi with hi | hi <;>
    · simp only [loopGo, hi]
      rw [ih response data (attempts + 1) (maybe_sleep i sleeps) hrest]
      simp only [List.length_cons, List.foldl_cons, LoopOut.mk.injEq, and_true,
        true_and]
      omega

/-- C8: the single-video fetch makes at most 3 request attempts, every
recorded sleep is the fixed 2-second delay, and when all three attempts
end in a timeout or connection error the fetch returns `None` after
exactly 3 attempts and the two fixed sleeps — it fails softly instead of
raising. -/
theorem fetch_video_retry_behavior (oracle : Nat → AttemptOutcome) :
    (fetch_video_model oracle).attempts ≤ 3 ∧
    (∀ x ∈ (fetch_video_model oracle).sleeps, x = 2) ∧
    ((∀ i, i < 3 → oracle i = .timeout ∨ oracle i = .connError) →
      (fetch_video_model oracle).out = .failure ∧
      (fetch_video_model oracle).attempts = 3 ∧
      (fetch_video_model oracle).sleeps = [2, 2]) := by
  refine ⟨?_, ?_, ?_⟩
  · have h := loopGo_attempts oracle [0, 1, 2] none none 0 []
    simpa [fetch_video_model] using h
  · have h := loopGo_sleeps oracle [0, 1, 2] none none 0 [] (by simp)
    simpa [fetch_video_model] using h
  · intro hall
    have hmem : ∀ i ∈ ([0, 1, 2] : List Nat),
        oracle i = .timeout ∨ oracle i = .connError := by
      intro i hi
      apply hall
      have h3 : i = 0 ∨ i = 1 ∨ i = 2 := by simpa using hi
      rcases h3 with h | h | h <;> omega
    have hloop := loopGo_all_transient oracle [0, 1, 2] none none 0 [] hmem
    have hfold : (([0, 1, 2] : List Nat).foldl
        (fun acc i => maybe_sleep i acc) []) = [2, 2] := by decide
    refine ⟨?_, ?_, ?_⟩ <;>
      simp [fetch_video_model, hloop, hfold, fetch_out]

/-- C8 witness: an oracle on which every request attempt times out. -/
theorem fetch_video_retry_behavior_w :
    (fetch_video_model (fun _ => .timeout)).out = .failure ∧
    (fetch_video_model (fun _ => .timeout)).attempts = 3 ∧
    (fetch_video_model (fun _ => .timeout)).sleeps = [2, 2] :=
  (fetch_video_retry_behavior (fun _ => .timeout)).2.2
    (fun _ _ => Or.inl rfl)

/-! ## C9: the batch fetch binds every requested id -/

/-- A dict write keeps a key's presence, and makes the written key present. -/
theorem alookup_dinsert_isSome {α : Type} (l : List (String × α)) (k : String)
    (v : α) (key : String)
    (h : (alookup l key).isSome = true ∨ key = k) :
    (alookup (dinsert l k v) key).isSome = true := by
  rw [alookup_dinsert]
  by_cases hk : k = key
  · simp [hk]
  · rw [if_neg hk]
    rcases h with h | h
    · exact h
    · exact absurd h.symm hk

/-- Inserting the Web-API entries never removes a key. -/
theorem web_insert_preserves (items : List (String × VideoData)) :
    ∀ (r : List (String × Option VideoData)) (key : String),
      (alookup r key).isSome = true →
      (alookup (items.foldl (fun r kv => dinsert r kv.1 (some kv.2)) r)
        key).isSome = true := by
  induction items with
  | nil => intro r key h; simpa using h
  | cons kv rest ih =>
    intro r key h
    simp only [List.foldl_cons]
    exact ih _ key (alookup_dinsert_isSome _ _ _ _ (Or.inl h))

/-- The fallback step makes its own id present and keeps every present key. -/
theorem chunk_item_step_present (o : BatchOracle)
    (r : List (String × Option VideoData)) (id key : String)
    (h : (alookup r key).isSome = true ∨ key = id) :
    (alookup (chunk_item_step o r id) key).isSome = true := by
  rw [chunk_item_step]
  by_cases hp : (alookup r id).isSome = true
  · rw [if_pos hp]
    rcases h with h | h
    · exact h
    · subst h; exact hp
  · rw [if_neg hp]
    cases hf : o.fallback id with
    | some d =>
      simp only [hf]
      rcases h with h | h
      · exact alookup_dinsert_isSome _ _ _ _
          (Or.inl (alookup_dinsert_isSome _ _ _ _ (Or.inl h)))
      · exact alookup_dinsert_isSome _ _ _ _ (Or.inr h)
    | none =>
      simp only [hf]
      exact alookup_dinsert_isSome _ _ _ _ h

/-- After the per-chunk fallback loop, every id of the chunk is a key and
every previously present key is still present. -/
theorem chunk_fold_present (o : BatchOracle) :
    ∀ (chunk : List String) (r : List (String × Option VideoData))
      (key : String),
      ((alookup r key).isSome = true ∨ key ∈ chunk) →
      (alookup (chunk.foldl (chunk_item_step o) r) key).isSome = true := by
  intro chunk
  induction chunk with
  | nil =>
    intro r key h
    rcases h with h | h
    · simpa using h
    · simp at h
  | cons id rest ih =>
    intro r key h
    simp only [List.foldl_cons]
    apply ih
    rcases h with h | h
    · exact Or.inl (chunk_item_step_present o r id key (Or.inl h))
    · rcases List.mem_cons.mp h with h | h
      · exact Or.inl (chunk_item_step_present o r id key (Or.inr h))
      · exact Or.inr h

/-- After processing one chunk, every chunk id is a key and every
previously present key is still present. -/
theorem processChunk_present (o : BatchOracle)
    (r : List (String × Option VideoData)) (chunk : List String) (key : String)
    (h : (alookup r key).isSome = true ∨ key ∈ chunk) :
    (alookup (processChunk o r chunk) key).isSome = true := by
  simp only [processChunk]
  apply chunk_fold_present
  rcases h with h | h
  · exact Or.inl (web_insert_preserves _ _ _ h)
  · exact Or.inr h

/-- Running the chunk loop makes every id of every chunk a key. -/
theorem run_chunks_present (o : BatchOracle) :
    ∀ (cs : List (List String)) (r : List (String × Option VideoData))
      (key : String),
      ((alookup r key).isSome = true ∨ ∃ c ∈ cs, key ∈ c) →
      (alookup (run_chunks o cs r) key).isSome = true := by
  intro cs
  induction cs with
  | nil =>
    intro r key h
    rcases h with h | ⟨c, hc, _⟩
    · simpa [run_chunks] using h
    · simp at hc
  | cons c rest ih =>
    intro r key h
    simp only [run_chunks]
    apply ih
    rcases h with h | ⟨c0, hc0, hk⟩
    · exact Or.inl (processChunk_present o r c key (Or.inl h))
    · rcases List.mem_cons.mp hc0 with he | he
      · subst he
        exact Or.inl (processChunk_present o r c0 key (Or.inr hk))
      · exact Or.inr ⟨c0, he, hk⟩

/-- Every element of a list lies in one of its 50-chunks. -/
theorem mem_chunksOf (id : String) :
    ∀ (l : List String), id ∈ l → ∃ c ∈ chunksOf l, id ∈ c := by
  intro l
  induction l using chunksOf.induct with
  | case1 => intro h; simp at h
  | case2 x xs ih =>
    intro h
    by_cases ht : id ∈ (x :: xs).take 50
    · refine ⟨(x :: xs).take 50, ?_, ht⟩
      rw [chunksOf]
      exact List.mem_cons_self _ _
    · have hd : id ∈ (x :: xs).drop 50 := by
        have hsplit := List.take_append_drop 50 (x :: xs)
        rw [← hsplit] at h
        rcases List.mem_append.mp h with h | h
        · exact absurd h ht
        · exact h
      obtain ⟨c, hc, hm⟩ := ih hd
      refine ⟨c, ?_, hm⟩
      rw [chunksOf]
      exact List.mem_cons_of_mem _ hc

/-- One App-API statistics record keeps every key present. -/
theorem app_stats_step_preserves (r : List (String × Option VideoData))
    (e : String × Nat) (key : String)
    (h : (alookup r key).isSome = true) :
    (alookup (app_stats_step r e) key).isSome = true := by
  rw [app_stats_step]
  cases ha : alookup r e.1 with
  | none => simpa [ha] using h
  | some v =>
    cases v with
    | none => simpa [ha] using h
    | some d =>
      simp only [ha]
      exact alookup_dinsert_isSome _ _ _ _ (Or.inl h)

/-- The App-API supplement phase keeps every key present. -/
theorem applyAppStats_preserves :
    ∀ (stats : List (String × Nat)) (r : List (String × Option VideoData))
      (key : String),
      (alookup r key).isSome = true →
      (alookup (applyAppStats stats r) key).isSome = true := by
  intro stats
  induction stats with
  | nil => intro r key h; simpa [applyAppStats] using h
  | cons e rest ih =>
    intro r key h
    simp only [applyAppStats, List.foldl_cons] at ih ⊢
    exact ih _ key (app_stats_step_preserves r e key h)

/-- Lookup after the top-level exception handler's comprehension
`{aweme_id: None for aweme_id in aweme_ids}`. -/
theorem alookup_foldl_insert_none :
    ∀ (ids : List String) (acc : List (String × Option VideoData))
      (key : String),
      alookup (ids.foldl (fun r id => dinsert r id none) acc) key =
        if key ∈ ids then some none else alookup acc key := by
  intro ids
  induction ids with
  | nil => intro acc key; simp
  | cons id rest ih =>
    intro acc key
    simp only [List.foldl_cons]
    rw [ih]
    by_cases hk : key ∈ rest
    · simp [hk, List.mem_cons]
    · rw [if_neg hk]
      by_cases he : key = id
      · subst he
        rw [alookup_dinsert]
        simp [List.mem_cons]
      · rw [alookup_dinsert, if_neg (fun e => he e.symm)]
        have hnm : ¬ key ∈ id :: rest := by
          intro hmem
          rcases List.mem_cons.mp hmem with hmem | hmem
          · exact he hmem
          · exact hk hmem
        rw [if_neg hnm]

/-- C9: for every oracle behaviour, the mapping returned by
`fetch_videos_batch` binds every requested id to either a record or
`None`; the empty request yields the empty mapping; and a top-level
exception binds every requested id to `None`. -/
theorem batch_keys_total (o : BatchOracle) (aweme_ids : List String) :
    (∀ id ∈ aweme_ids,
      (alookup (fetch_videos_batch o aweme_ids) id).isSome = true) ∧
    fetch_videos_batch o [] = [] ∧
    (o.topException = true → ∀ id ∈ aweme_ids,
      alookup (fetch_videos_batch o aweme_ids) id = some none) := by
  refine ⟨?_, by simp [fetch_videos_batch], ?_⟩
  · intro id hid
    have hne : aweme_ids.isEmpty = false := by
      cases aweme_ids
      · simp at hid
      · simp
    rw [fetch_videos_batch]
    rw [if_neg (by simp [hne])]
    by_cases hexc : o.topException = true
    · rw [if_pos hexc, alookup_foldl_insert_none]
      simp [hid]
    · rw [if_neg hexc]
      apply applyAppStats_preserves
      apply run_chunks_present
      exact Or.inr (mem_chunksOf id aweme_ids hid)
  · intro hexc id hid
    have hne : aweme_ids.isEmpty = false := by
      cases aweme_ids
      · simp at hid
      · simp
    rw [fetch_videos_batch]
    rw [if_neg (by simp [hne]), if_pos hexc, alookup_foldl_insert_none]
    simp [hid]

/-- C9 witness: a two-id request against a softly failing oracle, and a
one-id request against an oracle whose run raises. -/
theorem batch_keys_total_w :
    (alookup
        (fetch_videos_batch wOracle
          ["7000000000000000001", "7000000000000000002"])
        "7000000000000000001").isSome = true ∧
    alookup (fetch_videos_batch wOracleExc ["7000000000000000001"])
        "7000000000000000001" = some none :=
  ⟨(batch_keys_total wOracle ["7000000000000000001", "7000000000000000002"]).1
      "7000000000000000001" (by decide),
   (batch_keys_total wOracleExc ["7000000000000000001"]).2.2 rfl
      "7000000000000000001" (by decide)⟩
